import Mathlib

/-!
Verification of the data cleaning + join + metrics pipeline of the executive
training dashboard (`src/app.py`).

The script is a linear pandas program: three raw tables (orders, catalog,
customers) are type-coerced, deduplicated, left-joined into one denormalized
record set, then filtered by a selected year and city set and aggregated into
KPIs, growth rates, Pareto concentration, a risk score and upsell candidate
rankings.

Embedding conventions:
* a dataframe is a `List` of records, in row order;
* a numeric cell is `Option ℚ` where `none` is the missing marker (pandas
  `NaN` after `pd.to_numeric(..., errors="coerce")`); a text cell is
  `Option String`;
* `none`-propagation mirrors pandas missing-value arithmetic, and sums skip
  missing values as pandas `sum` does;
* quantities pandas renders as `NaN`/`inf` (a `pct_change` against a zero or
  absent previous value, a share of a zero total) are `none`;
* the page-level control flow (`st.stop()` on empty data, the `IndexError` on
  `client_rev.iloc[0]` of an empty grouping, the `ZeroDivisionError` on
  `len(top_80)/len(training_rev)`) is an `Except` value.
-/

attribute [local semireducible] Rat.add Rat.mul Rat.inv Rat.sub Rat.ofScientific

namespace Dashboard

/-- A calendar date (year, month, day) as produced by date normalization. -/
structure Date where
  year : Nat
  month : Nat
  day : Nat
deriving DecidableEq, Repr

/-- Gregorian leap-year rule. -/
def isLeap (y : Nat) : Bool :=
  (y % 4 == 0 && y % 100 != 0) || y % 400 == 0

/-- Number of days of month `m` in year `y`. -/
def daysInMonth (y m : Nat) : Nat :=
  if m == 2 then (if isLeap y then 29 else 28)
  else if m == 4 || m == 6 || m == 9 || m == 11 then 30
  else 31

/-- Is `d`/`m`/`y` a valid day/month/year combination? -/
def validDMY (d m y : Nat) : Bool :=
  1 ≤ m && m ≤ 12 && 1 ≤ d && d ≤ daysInMonth y m

/-- Split a character list on `/` separators. -/
def splitSlash : List Char → List (List Char)
  | [] => [[]]
  | c :: cs =>
    if c == '/' then [] :: splitSlash cs
    else
      match splitSlash cs with
      | [] => [[c]]
      | g :: gs => (c :: g) :: gs

/-- Value of a decimal digit character. -/
def digitVal (c : Char) : Option Nat :=
  if c.isDigit then some (c.toNat - 48) else none

/-- Value of a non-empty all-digit character list, `none` otherwise. -/
def digitsVal (cs : List Char) : Option Nat :=
  if cs.isEmpty then none
  else cs.foldl (fun acc c => acc.bind fun n => (digitVal c).map fun d => n * 10 + d) (some 0)

/-- Model of `pd.to_datetime(s, errors="coerce", dayfirst=True)` on numeric
slash-separated strings: the first component is preferred as the day
(`31/01/2024` is January 31); when that is not a valid calendar date the two
leading components are swapped (the month-first fallback of the underlying
dateutil parser); everything else coerces to the missing marker `none`. -/
def parseDate (s : String) : Option Date :=
  match (splitSlash s.toList).map digitsVal with
  | [some a, some b, some y] =>
    if validDMY a b y then some ⟨y, b, a⟩
    else if validDMY b a y then some ⟨y, a, b⟩
    else none
  | _ => none

/-- A raw order row. Numeric cells are shown after the
`pd.to_numeric(..., errors="coerce")` pass of `load_data` (`none` = NaN); the
raw `total_revenue` cell is carried because the spec calls it untrusted. The
date cell is the raw string. -/
structure RawOrder where
  order_id : Option String
  order_date : String
  training_name : Option String
  customer_id : Option String
  qty : Option ℚ
  price_per_pax : Option ℚ
  total_revenue : Option ℚ
deriving DecidableEq, Repr

/-- A raw training-catalog row, numeric cells post-coercion. -/
structure RawCatalog where
  training_id : Option String
  training_name : Option String
  trainer : Option String
  price_per_pax : Option ℚ
  max_pax : Option ℚ
  duration_days : Option ℚ
  category : Option String
deriving DecidableEq, Repr

/-- A raw customer row. -/
structure RawCustomer where
  customer_id : Option String
  company_name : Option String
  industry : Option String
  city : Option String
  contract_start : Option String
deriving DecidableEq, Repr

/-- An order row after date normalization: `order_date` is a parsed date. -/
structure Order where
  order_id : Option String
  order_date : Date
  training_name : Option String
  customer_id : Option String
  qty : Option ℚ
  price_per_pax : Option ℚ
  total_revenue : Option ℚ
deriving DecidableEq, Repr

/-- Worker for `dropDup`, carrying the key values already seen. -/
def dropDupAux {α κ : Type} [DecidableEq κ] (key : α → κ) : List κ → List α → List α
  | _, [] => []
  | seen, a :: as =>
    if key a ∈ seen then dropDupAux key seen as
    else a :: dropDupAux key (key a :: seen) as

/-- `DataFrame.drop_duplicates(subset=key)`: keep the first row of each key
value, in row order (pandas treats NaN keys as equal to each other, which the
`Option` key equality reproduces). -/
def dropDup {α κ : Type} [DecidableEq κ] (key : α → κ) (l : List α) : List α :=
  dropDupAux key [] l

/-- One raw order through `pd.to_datetime(..., errors="coerce", dayfirst=True)`
followed by `dropna(subset=["order_date"])`: `none` when the date coerces to
NaT and the row is dropped. -/
def liftOrder (r : RawOrder) : Option Order :=
  (parseDate r.order_date).map fun d =>
    { order_id := r.order_id, order_date := d, training_name := r.training_name,
      customer_id := r.customer_id, qty := r.qty, price_per_pax := r.price_per_pax,
      total_revenue := r.total_revenue }

/-- The orders surviving date coercion and `dropna`, in input order. -/
def datedOrders (l : List RawOrder) : List Order :=
  l.filterMap liftOrder

/-- Order normalization of `load_data`: date parsing, dropping rows whose date
is missing or unparsable, then `drop_duplicates(subset="order_id")`. -/
def normalizeOrders (l : List RawOrder) : List Order :=
  dropDup (fun o => o.order_id) (datedOrders l)

/-- Catalog normalization: `drop_duplicates(subset="training_id")`. -/
def normalizeCatalog (l : List RawCatalog) : List RawCatalog :=
  dropDup (fun c => c.training_id) l

/-- Customer normalization: `drop_duplicates(subset="customer_id")`. -/
def normalizeCustomers (l : List RawCustomer) : List RawCustomer :=
  dropDup (fun c => c.customer_id) l

/-- Missing-propagating product of two cells (`NaN * x = NaN`). -/
def omul : Option ℚ → Option ℚ → Option ℚ
  | some a, some b => some (a * b)
  | _, _ => none

/-- Line 125 of `src/app.py`:
`orders["total_revenue"] = orders["qty"] * orders["price_per_pax"]`. -/
def fixRevenue (o : Order) : Order :=
  { o with total_revenue := omul o.qty o.price_per_pax }

/-- A denormalized record of the merged dataframe `df`. The two
`price_per_pax` columns get the pandas `_x`/`_y` suffixes (orders side and
catalog side). Time-feature fields hold `0` until `addTimeFeatures`. -/
structure Enriched where
  order_id : Option String
  order_date : Date
  training_name : Option String
  customer_id : Option String
  qty : Option ℚ
  price_per_pax_x : Option ℚ
  total_revenue : Option ℚ
  training_id : Option String
  trainer : Option String
  price_per_pax_y : Option ℚ
  max_pax : Option ℚ
  duration_days : Option ℚ
  category : Option String
  company_name : Option String
  industry : Option String
  city : Option String
  month : Nat
  year : Nat
  quarter : Nat
deriving DecidableEq, Repr

/-- An order joined to a matching catalog row. -/
def enrichCat (o : Order) (c : RawCatalog) : Enriched :=
  { order_id := o.order_id, order_date := o.order_date,
    training_name := o.training_name, customer_id := o.customer_id,
    qty := o.qty, price_per_pax_x := o.price_per_pax,
    total_revenue := o.total_revenue,
    training_id := c.training_id, trainer := c.trainer,
    price_per_pax_y := c.price_per_pax, max_pax := c.max_pax,
    duration_days := c.duration_days, category := c.category,
    company_name := none, industry := none, city := none,
    month := 0, year := 0, quarter := 0 }

/-- An order with no catalog match: catalog fields are missing. -/
def enrichCatMiss (o : Order) : Enriched :=
  { order_id := o.order_id, order_date := o.order_date,
    training_name := o.training_name, customer_id := o.customer_id,
    qty := o.qty, price_per_pax_x := o.price_per_pax,
    total_revenue := o.total_revenue,
    training_id := none, trainer := none,
    price_per_pax_y := none, max_pax := none,
    duration_days := none, category := none,
    company_name := none, industry := none, city := none,
    month := 0, year := 0, quarter := 0 }

/-- `orders.merge(catalog, on="training_name", how="left")`: every order is
kept; each match contributes one output row; no match yields missing catalog
fields. -/
def mergeCatalog (os : List Order) (cat : List RawCatalog) : List Enriched :=
  os.flatMap fun o =>
    let ms := cat.filter fun c => c.training_name == o.training_name
    if ms.isEmpty then [enrichCatMiss o] else ms.map (enrichCat o)

/-- Fill the customer fields of a merged row from a matching customer. -/
def withCust (e : Enriched) (u : RawCustomer) : Enriched :=
  { e with company_name := u.company_name, industry := u.industry, city := u.city }

/-- `df.merge(customers, on="customer_id", how="left")`. -/
def mergeCustomers (l : List Enriched) (cus : List RawCustomer) : List Enriched :=
  l.flatMap fun e =>
    let ms := cus.filter fun u => u.customer_id == e.customer_id
    if ms.isEmpty then [e] else ms.map (withCust e)

/-- The `YYYY-MM` month bucket, encoded so that `Nat` order coincides with the
lexicographic order of the zero-padded label. -/
def monthKey (d : Date) : Nat :=
  d.year * 100 + d.month

/-- The `YYYY-Q#` quarter bucket, same encoding idea. -/
def quarterKey (d : Date) : Nat :=
  d.year * 10 + ((d.month - 1) / 3 + 1)

/-- Time feature derivation of `load_data` (lines 141 to 143). -/
def addTimeFeatures (e : Enriched) : Enriched :=
  { e with month := monthKey e.order_date, year := e.order_date.year,
           quarter := quarterKey e.order_date }

/-- `load_data` (the dataframe part): clean the three tables, recompute
revenue, left-join orders to the catalog on `training_name` and the result to
customers on `customer_id`, then derive the time features. -/
def loadData (orders : List RawOrder) (catalog : List RawCatalog)
    (customers : List RawCustomer) : List Enriched :=
  let os := (normalizeOrders orders).map fixRevenue
  (mergeCustomers (mergeCatalog os (normalizeCatalog catalog))
    (normalizeCustomers customers)).map addTimeFeatures

/-- `df["city"].isin(selected_city)`: a missing city never matches. -/
def cityMatch (cities : List String) (e : Enriched) : Bool :=
  match e.city with
  | some c => cities.contains c
  | none => false

/-- The filtered dataframe: `year == selected_year` and city membership. -/
def filterData (df : List Enriched) (selYear : Nat) (cities : List String) :
    List Enriched :=
  df.filter fun e => e.year == selYear && cityMatch cities e

/-- Column sum with pandas `skipna` semantics: missing cells are ignored and
the empty sum is `0`. -/
def osum (l : List (Option ℚ)) : ℚ :=
  (l.filterMap id).sum

/-- `filtered_df["total_revenue"].sum()`. -/
def totalRevenue (l : List Enriched) : ℚ :=
  osum (l.map fun e => e.total_revenue)

/-- `filtered_df["order_id"].nunique()` (pandas `nunique` skips NaN). -/
def totalOrders (l : List Enriched) : Nat :=
  (dropDup id (l.filterMap fun e => e.order_id)).length

/-- `filtered_df["qty"].sum()`. -/
def totalParticipants (l : List Enriched) : ℚ :=
  osum (l.map fun e => e.qty)

/-- `total_revenue / total_orders if total_orders > 0 else 0`. -/
def avgOrderValue (l : List Enriched) : ℚ :=
  if 0 < totalOrders l then totalRevenue l / (totalOrders l : ℚ) else 0

/-- Insert into an ascending `Nat` list. -/
def insertAscNat (a : Nat) : List Nat → List Nat
  | [] => [a]
  | b :: bs => if a ≤ b then a :: b :: bs else b :: insertAscNat a bs

/-- Ascending sort of `Nat` keys (`sort_index()` / sorted group keys). -/
def sortAscNat : List Nat → List Nat
  | [] => []
  | a :: as => insertAscNat a (sortAscNat as)

/-- Insert into an ascending `ℚ` list. -/
def insertAscQ (a : ℚ) : List ℚ → List ℚ
  | [] => [a]
  | b :: bs => if a ≤ b then a :: b :: bs else b :: insertAscQ a bs

/-- Ascending sort of rational values (used by `quantile`). -/
def sortAscQ : List ℚ → List ℚ
  | [] => []
  | a :: as => insertAscQ a (sortAscQ as)

/-- Insert in front of the first strictly smaller value. -/
def insertDescBy {α : Type} (f : α → ℚ) (a : α) : List α → List α
  | [] => [a]
  | b :: bs => if f b < f a then a :: b :: bs else b :: insertDescBy f a bs

/-- `sort_values(ascending=False)` on the value given by `f`. -/
def sortDescBy {α : Type} (f : α → ℚ) : List α → List α
  | [] => []
  | a :: as => insertDescBy f a (sortDescBy f as)

/-- `df.groupby(key)["total_revenue"].sum()` with its ascending key order:
one entry per distinct key value, each the skip-missing revenue sum of its
group. -/
def revSeriesBy (key : Enriched → Nat) (df : List Enriched) : List (Nat × ℚ) :=
  (sortAscNat (dropDup id (df.map key))).map fun k =>
    (k, totalRevenue (df.filter fun e => key e == k))

/-- `yearly = df.groupby("year")["total_revenue"].sum().sort_index()` over the
whole merged dataframe. -/
def yearlySeries (df : List Enriched) : List (Nat × ℚ) :=
  revSeriesBy (fun e => e.year) df

/-- `monthly = filtered_df.groupby("month")["total_revenue"].sum().sort_index()`. -/
def monthlySeries (fd : List Enriched) : List (Nat × ℚ) :=
  revSeriesBy (fun e => e.month) fd

/-- One `pct_change` step; `none` models the NaN/infinite result of a zero
previous value. -/
def pctStep (prev cur : ℚ) : Option ℚ :=
  if prev = 0 then none else some ((cur - prev) / prev)

/-- Worker for `seriesPct`: `pct_change` against the previous entry. -/
def seriesPctGo (p : Nat × ℚ) : List (Nat × ℚ) → List (Nat × Option ℚ)
  | [] => []
  | q :: qs => (q.1, pctStep p.2 q.2) :: seriesPctGo q qs

/-- `Series.pct_change()`: the first entry is NaN (`none`). -/
def seriesPct : List (Nat × ℚ) → List (Nat × Option ℚ)
  | [] => []
  | p :: ps => (p.1, none) :: seriesPctGo p ps

/-- The `* 100` scaling of one `pct_change` entry. -/
def scaleEntry (p : Nat × Option ℚ) : Nat × Option ℚ :=
  (p.1, p.2.map fun q => q * 100)

/-- Lines 206 to 208:
`yoy_growth = yearly.pct_change() * 100` and
`current_yoy = yoy_growth.loc[selected_year] if selected_year in yoy_growth.index else 0`.
Note the series is grouped over the whole dataframe `df`. -/
def currentYoy (df : List Enriched) (selYear : Nat) : Option ℚ :=
  let yoy := (seriesPct (yearlySeries df)).map scaleEntry
  match yoy.find? fun p => p.1 == selYear with
  | some p => p.2
  | none => some 0

/-- Lines 227 to 228: `monthly_growth = monthly.pct_change() * 100` and
`latest_growth = monthly_growth.iloc[-1] if len(monthly_growth) > 1 else 0`. -/
def latestGrowth (fd : List Enriched) : Option ℚ :=
  let mg := (seriesPct (monthlySeries fd)).map scaleEntry
  if 1 < mg.length then (mg.getLast?.map fun p => p.2).join else some 0

/-- `training_rev`: per-training revenue, sorted descending
(`filtered_df.groupby("training_name")["total_revenue"].sum()`; pandas groupby
drops missing keys). -/
def trainingRev (fd : List Enriched) : List (String × ℚ) :=
  sortDescBy (fun p => p.2)
    ((dropDup id (fd.filterMap fun e => e.training_name)).map fun t =>
      (t, totalRevenue (fd.filter fun e => e.training_name == some t)))

/-- A row of `pareto_df`: training name, revenue, cumulative percentage.
`cum = none` models the NaN column produced when the revenue total is zero. -/
structure ParetoRow where
  name : String
  revenue : ℚ
  cum : Option ℚ
deriving DecidableEq, Repr

/-- Worker for `paretoRows`: running cumulative sum `acc` against total `S`. -/
def cumGo (S acc : ℚ) : List (String × ℚ) → List ParetoRow
  | [] => []
  | p :: ps =>
    { name := p.1, revenue := p.2,
      cum := if S = 0 then none else some ((acc + p.2) / S * 100) } :: cumGo S (acc + p.2) ps

/-- `pareto_df` with its `cumulative_%` column
(`cumsum / sum * 100` over the descending ranking). -/
def paretoRows (fd : List Enriched) : List ParetoRow :=
  let tr := trainingRev fd
  cumGo ((tr.map fun p => p.2).sum) 0 tr

/-- The `cumulative_% <= 80` row predicate (false on the NaN column). -/
def cumLe80 (r : ParetoRow) : Bool :=
  match r.cum with
  | some c => c ≤ 80
  | none => false

/-- `top_80 = pareto_df[pareto_df["cumulative_%"] <= 80]`. -/
def top80 (fd : List Enriched) : List ParetoRow :=
  (paretoRows fd).filter cumLe80

/-- `client_rev`: per-company revenue sorted descending. -/
def clientRev (fd : List Enriched) : List (String × ℚ) :=
  sortDescBy (fun p => p.2)
    ((dropDup id (fd.filterMap fun e => e.company_name)).map fun nm =>
      (nm, totalRevenue (fd.filter fun e => e.company_name == some nm)))

/-- Line 263: `top_client_share = (client_rev.iloc[0] / client_rev.sum()) * 100`;
`none` models the NaN of a zero total (the empty case raises instead and is
handled by `dashboard`). -/
def topClientShare (fd : List Enriched) : Option ℚ :=
  match clientRev fd with
  | [] => none
  | p :: ps =>
    let S := ((p :: ps).map fun q => q.2).sum
    if S = 0 then none else some (p.2 / S * 100)

/-- `o < b` on a cell, false on missing (NaN comparisons are false). -/
def oLt (o : Option ℚ) (b : ℚ) : Bool :=
  match o with
  | some x => x < b
  | none => false

/-- `o > b` on a cell, false on missing. -/
def oGt (o : Option ℚ) (b : ℚ) : Bool :=
  match o with
  | some x => b < x
  | none => false

/-- Lines 270 to 277: the business risk score, one point each for negative
latest MoM growth, top-client share above 40, and a dominant-set size fraction
below 0.3. -/
def riskScore (mom tcs : Option ℚ) (nTop nAll : Nat) : Nat :=
  (if oLt mom 0 then 1 else 0) + (if oGt tcs 40 then 1 else 0) +
    (if (nTop : ℚ) / (nAll : ℚ) < 3 / 10 then 1 else 0)

/-- The categorical risk level rendered at lines 281 to 286. -/
inductive RiskLevel
  | LOW
  | MODERATE
  | HIGH
deriving DecidableEq, Repr

/-- `LOW` on score 0, `MODERATE` on score 1, `HIGH` otherwise. -/
def riskLevelOf (n : Nat) : RiskLevel :=
  if n == 0 then .LOW else if n == 1 then .MODERATE else .HIGH

/-- `Series.quantile(p)` with the pandas default linear interpolation between
the order statistics at positions `floor(p*(n-1))` and the next one; `none` on
an empty series. -/
def quantile (p : ℚ) (l : List ℚ) : Option ℚ :=
  let s := sortAscQ l
  if s.isEmpty then none
  else
    let pos := p * ((s.length : ℚ) - 1)
    let i := pos.floor.toNat
    let frac := pos - (i : ℚ)
    let vi := s.getD i 0
    let vj := s.getD (i + 1) vi
    some (vi + (vj - vi) * frac)

/-- A row of the `client_analysis` grouping of lines 475 to 484. -/
structure ClientRow where
  company_name : String
  total_revenue : ℚ
  total_orders : Nat
  total_participants : ℚ
  training_variety : Nat
deriving DecidableEq, Repr

/-- `client_analysis = filtered_df.groupby("company_name").agg(...)`: revenue
sum, distinct-order count, participant sum, distinct-training count. -/
def clientAnalysis (fd : List Enriched) : List ClientRow :=
  (dropDup id (fd.filterMap fun e => e.company_name)).map fun nm =>
    let g := fd.filter fun e => e.company_name == some nm
    { company_name := nm,
      total_revenue := totalRevenue g,
      total_orders := totalOrders g,
      total_participants := totalParticipants g,
      training_variety := (dropDup id (g.filterMap fun e => e.training_name)).length }

/-- `x >= t` against an optional threshold, false on a missing threshold. -/
def oGe (x : ℚ) (t : Option ℚ) : Bool :=
  match t with
  | some q => q ≤ x
  | none => false

/-- `x <= t` against an optional threshold, false on a missing threshold. -/
def oLe (x : ℚ) (t : Option ℚ) : Bool :=
  match t with
  | some q => x ≤ q
  | none => false

/-- The row filter of lines 490 to 495: revenue at or above the 0.6 quantile
and (order count at or below the median or training variety at most 2). -/
def upsellCond (rt ot : Option ℚ) (r : ClientRow) : Bool :=
  oGe r.total_revenue rt && (oLe (r.total_orders : ℚ) ot || r.training_variety ≤ 2)

/-- `upsell_clients` of lines 486 to 496: threshold on the 0.6 revenue
quantile and the median order count, filter, then sort by revenue descending. -/
def upsellClients (fd : List Enriched) : List ClientRow :=
  let A := clientAnalysis fd
  let rt := quantile (3 / 5) (A.map fun r => r.total_revenue)
  let ot := quantile (1 / 2) (A.map fun r => (r.total_orders : ℚ))
  sortDescBy (fun r => r.total_revenue) (A.filter (upsellCond rt ot))

/-- The ways a page run ends without reaching the end of the script. -/
inductive StopReason
  | emptyData
  | emptyFiltered
  | noClientGroups
  | noTrainingGroups
deriving DecidableEq, Repr

/-- The scalar and tabular outputs of one successful page run. -/
structure Metrics where
  totalRevenue : ℚ
  totalOrders : Nat
  totalParticipants : ℚ
  avgOrderValue : ℚ
  revenuePerParticipant : ℚ
  currentYoy : Option ℚ
  latestGrowth : Option ℚ
  paretoTop : List ParetoRow
  nTrainings : Nat
  topClientShare : Option ℚ
  riskScore : Nat
  riskLevel : RiskLevel
  upsellClients : List ClientRow
deriving DecidableEq, Repr

/-- The executable page flow after `load_data`: `st.stop()` on an empty
dataframe (line 156) or an empty filtered dataframe (line 178) ends the run
with an explicit empty state; a filtered set whose `company_name` column is
all missing raises `IndexError` at `client_rev.iloc[0]` (line 263); one whose
`training_name` column is all missing raises `ZeroDivisionError` at
`len(top_80) / len(training_rev)` (line 276). Otherwise all metrics are
produced. -/
def dashboard (orders : List RawOrder) (catalog : List RawCatalog)
    (customers : List RawCustomer) (selYear : Nat) (cities : List String) :
    Except StopReason Metrics :=
  let df := loadData orders catalog customers
  if df.isEmpty then .error .emptyData
  else
    let fd := filterData df selYear cities
    if fd.isEmpty then .error .emptyFiltered
    else
      let cr := clientRev fd
      let tr := trainingRev fd
      if cr.isEmpty then .error .noClientGroups
      else if tr.isEmpty then .error .noTrainingGroups
      else
        let mom := latestGrowth fd
        let tcs := topClientShare fd
        let t80 := top80 fd
        let n := riskScore mom tcs t80.length tr.length
        .ok
          { totalRevenue := totalRevenue fd,
            totalOrders := totalOrders fd,
            totalParticipants := totalParticipants fd,
            avgOrderValue := avgOrderValue fd,
            revenuePerParticipant :=
              if 0 < totalParticipants fd then totalRevenue fd / totalParticipants fd else 0,
            currentYoy := currentYoy df selYear,
            latestGrowth := mom,
            paretoTop := t80,
            nTrainings := tr.length,
            topClientShare := tcs,
            riskScore := n,
            riskLevel := riskLevelOf n,
            upsellClients := upsellClients fd }

/-- Modelled from the spec: the reading of year-over-year growth in claim C2,
which is not what `src/app.py` computes. The yearly revenue series is taken
over the merged data restricted to the selected cities (unfiltered by year but
otherwise the same as the filtered view); the growth compares the selected
year against calendar year `y - 1` in that series and is reported as `0` when
the selected year has no prior year there. -/
def yoySpecC2 (df : List Enriched) (selYear : Nat) (cities : List String) : Option ℚ :=
  let s := yearlySeries (df.filter (cityMatch cities))
  match s.find? (fun p => p.1 == selYear), s.find? (fun p => p.1 == selYear - 1) with
  | some p, some q => if q.2 = 0 then none else some ((p.2 - q.2) / q.2 * 100)
  | _, _ => some 0

deriving instance DecidableEq for Except

/-! Helper lemmas about deduplication. -/

theorem dropDupAux_filter_of_mem {α κ : Type} [DecidableEq κ] (key : α → κ) (k : κ) :
    ∀ (l : List α) (seen : List κ), k ∈ seen →
      (dropDupAux key seen l).filter (fun a => decide (key a = k)) = []
  | [], _, _ => rfl
  | a :: as, seen, hk => by
    by_cases h : key a ∈ seen
    · simp only [dropDupAux, if_pos h]
      exact dropDupAux_filter_of_mem key k as seen hk
    · simp only [dropDupAux, if_neg h]
      have hne : key a ≠ k := fun he => h (he ▸ hk)
      rw [List.filter_cons_of_neg (by simp [hne])]
      exact dropDupAux_filter_of_mem key k as (key a :: seen) (List.mem_cons_of_mem _ hk)

theorem dropDupAux_filter_of_not_mem {α κ : Type} [DecidableEq κ] (key : α → κ) (k : κ) :
    ∀ (l : List α) (seen : List κ), k ∉ seen →
      (dropDupAux key seen l).filter (fun a => decide (key a = k)) =
        (l.find? fun a => decide (key a = k)).toList
  | [], _, _ => rfl
  | a :: as, seen, hk => by
    by_cases h : key a ∈ seen
    · have hne : key a ≠ k := fun he => hk (he ▸ h)
      simp only [dropDupAux, if_pos h]
      rw [dropDupAux_filter_of_not_mem key k as seen hk, List.find?_cons_of_neg _ (by simp [hne])]
    · simp only [dropDupAux, if_neg h]
      by_cases he : key a = k
      · rw [List.filter_cons_of_pos (by simp [he]), List.find?_cons_of_pos _ (by simp [he]),
          dropDupAux_filter_of_mem key k as (key a :: seen) (by simp [he])]
        rfl
      · rw [List.filter_cons_of_neg (by simp [he]), List.find?_cons_of_neg _ (by simp [he])]
        exact dropDupAux_filter_of_not_mem key k as (key a :: seen)
          (by simp; exact ⟨fun hx => he hx.symm, hk⟩)

/-- The rows of `drop_duplicates(subset=key)` with a given key value are
exactly the first input row with that key value (if any). -/
theorem dropDup_filter_key {α κ : Type} [DecidableEq κ] (key : α → κ) (k : κ) (l : List α) :
    (dropDup key l).filter (fun a => decide (key a = k)) =
      (l.find? fun a => decide (key a = k)).toList :=
  dropDupAux_filter_of_not_mem key k l [] (List.not_mem_nil k)

theorem mem_dropDupAux {α κ : Type} [DecidableEq κ] (key : α → κ) :
    ∀ (l : List α) (seen : List κ) (a : α), a ∈ dropDupAux key seen l → a ∈ l ∧ key a ∉ seen
  | [], _, _, h => by simp [dropDupAux] at h
  | b :: bs, seen, a, h => by
    by_cases hb : key b ∈ seen
    · simp only [dropDupAux, if_pos hb] at h
      have := mem_dropDupAux key bs seen a h
      exact ⟨List.mem_cons_of_mem _ this.1, this.2⟩
    · simp only [dropDupAux, if_neg hb, List.mem_cons] at h
      rcases h with h | h
      · exact ⟨by simp [h], by simp [h]; exact hb⟩
      · have := mem_dropDupAux key bs (key b :: seen) a h
        exact ⟨List.mem_cons_of_mem _ this.1,
          fun hs => this.2 (List.mem_cons_of_mem _ hs)⟩

theorem mem_dropDup {α κ : Type} [DecidableEq κ] (key : α → κ) {l : List α} {a : α}
    (h : a ∈ dropDup key l) : a ∈ l :=
  (mem_dropDupAux key l [] a h).1

theorem dropDupAux_pairwise {α κ : Type} [DecidableEq κ] (key : α → κ) :
    ∀ (l : List α) (seen : List κ),
      List.Pairwise (fun a b => key a ≠ key b) (dropDupAux key seen l)
  | [], _ => List.Pairwise.nil
  | a :: as, seen => by
    by_cases h : key a ∈ seen
    · simp only [dropDupAux, if_pos h]
      exact dropDupAux_pairwise key as seen
    · simp only [dropDupAux, if_neg h]
      refine List.Pairwise.cons ?_ (dropDupAux_pairwise key as (key a :: seen))
      intro b hb he
      exact (mem_dropDupAux key _ _ _ hb).2 (by simp [he])

/-- Deduplicated rows have pairwise distinct key values. -/
theorem dropDup_pairwise {α κ : Type} [DecidableEq κ] (key : α → κ) (l : List α) :
    List.Pairwise (fun a b => key a ≠ key b) (dropDup key l) :=
  dropDupAux_pairwise key l []

theorem dropDup_id_nodup {κ : Type} [DecidableEq κ] (l : List κ) :
    (dropDup (id : κ → κ) l).Nodup :=
  dropDup_pairwise id l

/-! Helper lemmas about the sorting routines. -/

theorem insertAscNat_perm (a : Nat) : ∀ l : List Nat, List.Perm (insertAscNat a l) (a :: l)
  | [] => List.Perm.refl _
  | b :: bs => by
    by_cases h : a ≤ b
    · simp [insertAscNat, if_pos h]
    · simp only [insertAscNat, if_neg h]
      exact ((insertAscNat_perm a bs).cons b).trans (List.Perm.swap a b bs)

theorem sortAscNat_perm : ∀ l : List Nat, List.Perm (sortAscNat l) l
  | [] => List.Perm.refl _
  | a :: as => (insertAscNat_perm a (sortAscNat as)).trans ((sortAscNat_perm as).cons a)

theorem insertAscNat_pairwise (a : Nat) :
    ∀ {l : List Nat}, List.Pairwise (· ≤ ·) l → List.Pairwise (· ≤ ·) (insertAscNat a l)
  | [], _ => by simp [insertAscNat]
  | b :: bs, h => by
    by_cases hab : a ≤ b
    · rw [insertAscNat, if_pos hab]
      refine List.Pairwise.cons ?_ h
      intro c hc
      rcases List.mem_cons.mp hc with rfl | hc
      · exact hab
      · exact hab.trans (List.rel_of_pairwise_cons h hc)
    · rw [insertAscNat, if_neg hab]
      refine List.Pairwise.cons ?_ (insertAscNat_pairwise a h.of_cons)
      intro c hc
      rcases List.mem_cons.mp ((insertAscNat_perm a bs).mem_iff.mp hc) with rfl | hc
      · exact Nat.le_of_not_le hab
      · exact List.rel_of_pairwise_cons h hc

theorem sortAscNat_pairwise : ∀ l : List Nat, List.Pairwise (· ≤ ·) (sortAscNat l)
  | [] => List.Pairwise.nil
  | a :: as => insertAscNat_pairwise a (sortAscNat_pairwise as)

theorem insertDescBy_perm {α : Type} (f : α → ℚ) (a : α) :
    ∀ l : List α, List.Perm (insertDescBy f a l) (a :: l)
  | [] => List.Perm.refl _
  | b :: bs => by
    by_cases h : f b < f a
    · simp [insertDescBy, if_pos h]
    · simp only [insertDescBy, if_neg h]
      exact ((insertDescBy_perm f a bs).cons b).trans (List.Perm.swap a b bs)

theorem sortDescBy_perm {α : Type} (f : α → ℚ) : ∀ l : List α, List.Perm (sortDescBy f l) l
  | [] => List.Perm.refl _
  | a :: as => (insertDescBy_perm f a (sortDescBy f as)).trans ((sortDescBy_perm f as).cons a)

theorem mem_sortDescBy {α : Type} (f : α → ℚ) {l : List α} {a : α} :
    a ∈ sortDescBy f l ↔ a ∈ l :=
  (sortDescBy_perm f l).mem_iff

theorem insertDescBy_pairwise {α : Type} (f : α → ℚ) (a : α) :
    ∀ {l : List α}, List.Pairwise (fun x y => f y ≤ f x) l →
      List.Pairwise (fun x y => f y ≤ f x) (insertDescBy f a l)
  | [], _ => by simp [insertDescBy]
  | b :: bs, h => by
    by_cases hab : f b < f a
    · rw [insertDescBy, if_pos hab]
      refine List.Pairwise.cons ?_ h
      intro c hc
      rcases List.mem_cons.mp hc with rfl | hc
      · exact le_of_lt hab
      · exact (List.rel_of_pairwise_cons h hc).trans (le_of_lt hab)
    · rw [insertDescBy, if_neg hab]
      refine List.Pairwise.cons ?_ (insertDescBy_pairwise f a h.of_cons)
      intro c hc
      rcases List.mem_cons.mp ((insertDescBy_perm f a bs).mem_iff.mp hc) with rfl | hc
      · exact le_of_not_lt hab
      · exact List.rel_of_pairwise_cons h hc

/-- `sort_values(ascending=False)` output is descending in the sort value. -/
theorem sortDescBy_pairwise {α : Type} (f : α → ℚ) :
    ∀ l : List α, List.Pairwise (fun x y => f y ≤ f x) (sortDescBy f l)
  | [] => List.Pairwise.nil
  | a :: as => insertDescBy_pairwise f a (sortDescBy_pairwise f as)

/-! Helper lemmas about flatMap lengths (left-join row accounting). -/

theorem flatMap_length_ge {α β : Type} (f : α → List β) :
    ∀ l : List α, (∀ a ∈ l, 1 ≤ (f a).length) → l.length ≤ (l.flatMap f).length
  | [], _ => Nat.le_refl 0
  | a :: as, h => by
    have h1 := h a (by simp)
    have h2 := flatMap_length_ge f as fun x hx => h x (List.mem_cons_of_mem _ hx)
    simp only [List.flatMap_cons, List.length_append, List.length_cons]
    omega

theorem flatMap_length_eq {α β : Type} (f : α → List β) :
    ∀ l : List α, (∀ a ∈ l, (f a).length = 1) → (l.flatMap f).length = l.length
  | [], _ => rfl
  | a :: as, h => by
    have h1 := h a (by simp)
    have h2 := flatMap_length_eq f as fun x hx => h x (List.mem_cons_of_mem _ hx)
    simp only [List.flatMap_cons, List.length_append, List.length_cons]
    omega

theorem filter_key_length_le_one {α : Type} (p : α → Bool) :
    ∀ {l : List α}, List.Pairwise (fun a b => ¬(p a = true ∧ p b = true)) l →
      (l.filter p).length ≤ 1
  | [], _ => by simp
  | a :: as, h => by
    by_cases hp : p a = true
    · rw [List.filter_cons_of_pos hp]
      have : as.filter p = [] := by
        rw [List.filter_eq_nil_iff]
        intro b hb hpb
        exact List.rel_of_pairwise_cons h hb ⟨hp, hpb⟩
      simp [this]
    · rw [List.filter_cons_of_neg (by simpa using hp)]
      exact filter_key_length_le_one p h.of_cons

/-! Helper lemmas about the cumulative Pareto column. -/

theorem cumGo_map_rev (S : ℚ) :
    ∀ (acc : ℚ) (l : List (String × ℚ)),
      (cumGo S acc l).map (fun r => r.revenue) = l.map fun p => p.2
  | _, [] => rfl
  | acc, p :: ps => by
    simp only [cumGo, List.map_cons]
    rw [cumGo_map_rev S (acc + p.2) ps]

theorem cumGo_length (S : ℚ) :
    ∀ (acc : ℚ) (l : List (String × ℚ)), (cumGo S acc l).length = l.length
  | _, [] => rfl
  | acc, p :: ps => by
    simp only [cumGo, List.length_cons]
    rw [cumGo_length S (acc + p.2) ps]

theorem cumGo_cum_lower (S : ℚ) (hS : 0 < S) :
    ∀ (l : List (String × ℚ)) (acc : ℚ), (∀ p ∈ l, 0 ≤ p.2) →
      ∀ r ∈ cumGo S acc l, ∃ c, r.cum = some c ∧ acc / S * 100 ≤ c
  | [], _, _, r, hr => absurd hr (List.not_mem_nil r)
  | p :: ps, acc, hnn, r, hr => by
    have hmono : acc / S * 100 ≤ (acc + p.2) / S * 100 := by
      have h1 : (0 : ℚ) ≤ p.2 := hnn p (by simp)
      have h2 : acc / S ≤ (acc + p.2) / S := by
        apply (div_le_div_iff_of_pos_right hS).mpr
        linarith
      linarith
    simp only [cumGo] at hr
    rcases List.mem_cons.mp hr with rfl | hr
    · exact ⟨(acc + p.2) / S * 100, by simp [if_neg (ne_of_gt hS)], hmono⟩
    · obtain ⟨c, hc, hcle⟩ := cumGo_cum_lower S hS ps (acc + p.2)
        (fun q hq => hnn q (List.mem_cons_of_mem _ hq)) r hr
      exact ⟨c, hc, le_trans hmono hcle⟩

theorem cumGo_filter_take (S : ℚ) (hS : 0 < S) :
    ∀ (l : List (String × ℚ)) (acc : ℚ), (∀ p ∈ l, 0 ≤ p.2) →
      ∃ k, (cumGo S acc l).filter cumLe80 = (cumGo S acc l).take k ∧ k ≤ l.length ∧
        ∀ r, (cumGo S acc l).get? k = some r → ∃ c, r.cum = some c ∧ 80 < c
  | [], acc, _ => ⟨0, by simp [cumGo]⟩
  | p :: ps, acc, hnn => by
    have hSne : S ≠ 0 := ne_of_gt hS
    by_cases h80 : (acc + p.2) / S * 100 ≤ 80
    · obtain ⟨k, hk1, hk2, hk3⟩ := cumGo_filter_take S hS ps (acc + p.2)
        (fun q hq => hnn q (List.mem_cons_of_mem _ hq))
      refine ⟨k + 1, ?_, by simpa using hk2, ?_⟩
      · simp only [cumGo, if_neg hSne]
        rw [List.filter_cons_of_pos (by simp [cumLe80]; exact h80), hk1]
        rfl
      · intro r hr
        simp only [cumGo, if_neg hSne, List.get?_cons_succ] at hr
        exact hk3 r hr
    · refine ⟨0, ?_, Nat.zero_le _, ?_⟩
      · simp only [cumGo, if_neg hSne, List.take_zero]
        rw [List.filter_cons_of_neg (by simp [cumLe80]; exact lt_of_not_le h80)]
        rw [List.filter_eq_nil_iff]
        intro r hr
        obtain ⟨c, hc, hcge⟩ := cumGo_cum_lower S hS ps (acc + p.2)
          (fun q hq => hnn q (List.mem_cons_of_mem _ hq)) r hr
        simp [cumLe80, hc]
        linarith [lt_of_not_le h80]
      · intro r hr
        simp only [cumGo, if_neg hSne, List.get?_cons_zero, Option.some.injEq] at hr
        exact ⟨(acc + p.2) / S * 100, by rw [← hr], lt_of_not_le h80⟩

theorem cumGo_get?_cum (S : ℚ) (hS : S ≠ 0) :
    ∀ (l : List (String × ℚ)) (acc : ℚ) (i : Nat) (r : ParetoRow),
      (cumGo S acc l).get? i = some r →
      r.cum = some ((acc + ((l.take (i + 1)).map fun p => p.2).sum) / S * 100)
  | [], _, i, r, h => by simp [cumGo] at h
  | p :: ps, acc, 0, r, h => by
    simp only [cumGo, if_neg hS, List.get?_cons_zero, Option.some.injEq] at h
    subst h
    simp
  | p :: ps, acc, i + 1, r, h => by
    simp only [cumGo, List.get?_cons_succ] at h
    rw [cumGo_get?_cum S hS ps (acc + p.2) i r h]
    congr 2
    simp only [List.take_succ_cons, List.map_cons, List.sum_cons]
    ring

/-! Helper lemmas about the `pct_change` series. -/

theorem seriesPctGo_length : ∀ (p : Nat × ℚ) (l : List (Nat × ℚ)),
    (seriesPctGo p l).length = l.length
  | _, [] => rfl
  | p, q :: qs => by
    simp only [seriesPctGo, List.length_cons]
    rw [seriesPctGo_length q qs]

theorem seriesPct_length : ∀ l : List (Nat × ℚ), (seriesPct l).length = l.length
  | [] => rfl
  | p :: ps => by
    simp only [seriesPct, List.length_cons]
    rw [seriesPctGo_length p ps]

theorem seriesPctGo_keys : ∀ (p : Nat × ℚ) (l : List (Nat × ℚ)),
    (seriesPctGo p l).map (fun q => q.1) = l.map fun q => q.1
  | _, [] => rfl
  | p, q :: qs => by
    simp only [seriesPctGo, List.map_cons]
    rw [seriesPctGo_keys q qs]

theorem seriesPct_keys : ∀ l : List (Nat × ℚ),
    (seriesPct l).map (fun q => q.1) = l.map fun q => q.1
  | [] => rfl
  | p :: ps => by
    simp only [seriesPct, List.map_cons]
    rw [seriesPctGo_keys p ps]

theorem revSeriesBy_keys (key : Enriched → Nat) (df : List Enriched) :
    (revSeriesBy key df).map (fun p => p.1) = sortAscNat (dropDup id (df.map key)) := by
  unfold revSeriesBy
  rw [List.map_map]
  show List.map (fun k => k) _ = _
  rw [List.map_id']

theorem revSeriesBy_keys_nodup (key : Enriched → Nat) (df : List Enriched) :
    ((revSeriesBy key df).map (fun p => p.1)).Nodup := by
  rw [revSeriesBy_keys]
  exact (sortAscNat_perm _).nodup_iff.mpr (dropDup_id_nodup _)

theorem find?_scaled_none (s : List (Nat × ℚ)) (y : Nat) (h : ∀ p ∈ s, p.1 ≠ y) :
    ((seriesPct s).map scaleEntry).find? (fun p => p.1 == y) = none := by
  rw [List.find?_eq_none]
  intro x hx
  simp only [List.mem_map] at hx
  obtain ⟨q, hq, rfl⟩ := hx
  have hk : q.1 ∈ s.map fun p => p.1 := by
    rw [← seriesPct_keys]
    exact List.mem_map_of_mem _ hq
  simp only [List.mem_map] at hk
  obtain ⟨p, hp, hpe⟩ := hk
  simp only [scaleEntry, beq_iff_eq]
  intro he
  exact h p hp (by rw [hpe, he])

theorem find?_scaled_head (y : Nat) (v : ℚ) (tail : List (Nat × ℚ)) :
    ((seriesPct ((y, v) :: tail)).map scaleEntry).find? (fun p => p.1 == y) =
      some (y, none) := by
  have e : seriesPct ((y, v) :: tail) = (y, none) :: seriesPctGo (y, v) tail := rfl
  rw [e]
  simp only [List.map_cons]
  rw [List.find?_cons_of_pos _ (by simp [scaleEntry])]
  rfl

theorem find?_scaled_succ :
    ∀ (s : List (Nat × ℚ)) (i : Nat) (y' y : Nat) (v' v : ℚ),
      ((s.map fun p => p.1).Nodup) → s.get? i = some (y', v') →
      s.get? (i + 1) = some (y, v) →
      ((seriesPct s).map scaleEntry).find? (fun p => p.1 == y) =
        some (y, (pctStep v' v).map fun q => q * 100)
  | [], i, _, _, _, _, _, h1, _ => by simp at h1
  | p :: ps, 0, y', y, v', v, hnd, h1, h2 => by
    cases ps with
    | nil => simp at h2
    | cons q qs =>
      simp only [List.get?_cons_zero, Option.some.injEq] at h1
      simp only [List.get?_cons_succ, List.get?_cons_zero, Option.some.injEq] at h2
      subst h1
      subst h2
      have hy : y' ≠ y := by
        simp only [List.map_cons, List.nodup_cons, List.mem_cons] at hnd
        exact fun he => hnd.1 (Or.inl he)
      have e : seriesPct ((y', v') :: (y, v) :: qs) =
          (y', none) :: (y, pctStep v' v) :: seriesPctGo (y, v) qs := rfl
      rw [e]
      simp only [List.map_cons]
      rw [List.find?_cons_of_neg _ (by simp [scaleEntry]; exact hy),
        List.find?_cons_of_pos _ (by simp [scaleEntry])]
      rfl
  | p :: ps, i + 1, y', y, v', v, hnd, h1, h2 => by
    simp only [List.get?_cons_succ] at h1 h2
    cases ps with
    | nil => simp at h1
    | cons q qs =>
      have hnd0 : ((p :: q :: qs).map fun x => x.1).Nodup := hnd
      simp only [List.map_cons, List.nodup_cons] at hnd0
      have hnd' : ((q :: qs).map fun x => x.1).Nodup := by
        simp only [List.map_cons, List.nodup_cons]
        exact hnd0.2
      have IH := find?_scaled_succ (q :: qs) i y' y v' v hnd' h1 h2
      have hyqs : y ∈ qs.map fun x => x.1 := by
        simp only [List.get?_cons_succ] at h2
        exact List.mem_map.mpr ⟨(y, v), List.get?_mem h2, rfl⟩
      have hpy : p.1 ≠ y := by
        intro he
        exact hnd0.1 (by rw [he]; exact List.mem_cons_of_mem _ hyqs)
      have hqy : q.1 ≠ y := by
        intro he
        exact hnd0.2.1 (by rw [he]; exact hyqs)
      have e1 : seriesPct (p :: q :: qs) =
          (p.1, none) :: (q.1, pctStep p.2 q.2) :: seriesPctGo q qs := rfl
      have e2 : seriesPct (q :: qs) = (q.1, none) :: seriesPctGo q qs := rfl
      rw [e2] at IH
      simp only [List.map_cons] at IH
      rw [List.find?_cons_of_neg _ (by simp [scaleEntry]; exact hqy)] at IH
      rw [e1]
      simp only [List.map_cons]
      rw [List.find?_cons_of_neg _ (by simp [scaleEntry]; exact hpy),
        List.find?_cons_of_neg _ (by simp [scaleEntry]; exact hqy)]
      exact IH

/-! Helper lemmas about the join stages. -/

theorem mem_mergeCatalog {os : List Order} {cat : List RawCatalog} {e : Enriched}
    (h : e ∈ mergeCatalog os cat) :
    ∃ o ∈ os, e.qty = o.qty ∧ e.price_per_pax_x = o.price_per_pax ∧
      e.total_revenue = o.total_revenue := by
  simp only [mergeCatalog, List.mem_flatMap] at h
  obtain ⟨o, ho, he⟩ := h
  refine ⟨o, ho, ?_⟩
  by_cases hm : (cat.filter fun c => c.training_name == o.training_name).isEmpty
  · rw [if_pos hm] at he
    simp only [List.mem_singleton] at he
    subst he
    exact ⟨rfl, rfl, rfl⟩
  · rw [if_neg hm] at he
    simp only [List.mem_map] at he
    obtain ⟨c, _, he⟩ := he
    subst he
    exact ⟨rfl, rfl, rfl⟩

theorem mem_mergeCustomers {l : List Enriched} {cus : List RawCustomer} {e : Enriched}
    (h : e ∈ mergeCustomers l cus) :
    ∃ x ∈ l, e.qty = x.qty ∧ e.price_per_pax_x = x.price_per_pax_x ∧
      e.total_revenue = x.total_revenue := by
  simp only [mergeCustomers, List.mem_flatMap] at h
  obtain ⟨x, hx, he⟩ := h
  refine ⟨x, hx, ?_⟩
  by_cases hm : (cus.filter fun u => u.customer_id == x.customer_id).isEmpty
  · rw [if_pos hm] at he
    simp only [List.mem_singleton] at he
    subst he
    exact ⟨rfl, rfl, rfl⟩
  · rw [if_neg hm] at he
    simp only [List.mem_map] at he
    obtain ⟨u, _, he⟩ := he
    subst he
    exact ⟨rfl, rfl, rfl⟩

theorem addTimeFeatures_qty (e : Enriched) : (addTimeFeatures e).qty = e.qty := rfl

theorem addTimeFeatures_price (e : Enriched) :
    (addTimeFeatures e).price_per_pax_x = e.price_per_pax_x := rfl

theorem addTimeFeatures_revenue (e : Enriched) :
    (addTimeFeatures e).total_revenue = e.total_revenue := rfl

theorem mem_loadData {lo : List RawOrder} {lc : List RawCatalog} {lu : List RawCustomer}
    {e : Enriched} (h : e ∈ loadData lo lc lu) :
    ∃ o ∈ normalizeOrders lo, e.qty = o.qty ∧ e.price_per_pax_x = o.price_per_pax ∧
      e.total_revenue = omul o.qty o.price_per_pax := by
  simp only [loadData, List.mem_map] at h
  obtain ⟨x, hx, he⟩ := h
  obtain ⟨x1, hx1, hq1, hp1, hr1⟩ := mem_mergeCustomers hx
  obtain ⟨o, ho, hq2, hp2, hr2⟩ := mem_mergeCatalog hx1
  simp only [List.mem_map] at ho
  obtain ⟨o0, ho0, hoe⟩ := ho
  refine ⟨o0, ho0, ?_, ?_, ?_⟩
  · rw [← he, addTimeFeatures_qty, hq1, hq2, ← hoe]
    rfl
  · rw [← he, addTimeFeatures_price, hp1, hp2, ← hoe]
    rfl
  · rw [← he, addTimeFeatures_revenue, hr1, hr2, ← hoe]
    rfl

theorem mergeCatalog_length_ge (os : List Order) (cat : List RawCatalog) :
    os.length ≤ (mergeCatalog os cat).length := by
  apply flatMap_length_ge
  intro o _
  by_cases hm : (cat.filter fun c => c.training_name == o.training_name).isEmpty
  · rw [if_pos hm]
    exact Nat.le_refl 1
  · rw [if_neg hm]
    rw [List.length_map]
    have hne : (cat.filter fun c => c.training_name == o.training_name) ≠ [] :=
      fun hh => hm (by rw [hh]; rfl)
    exact Nat.succ_le_of_lt (List.length_pos.mpr hne)

theorem mergeCatalog_length_eq (os : List Order) (cat : List RawCatalog)
    (hu : List.Pairwise (fun a b => a.training_name ≠ b.training_name) cat) :
    (mergeCatalog os cat).length = os.length := by
  apply flatMap_length_eq
  intro o _
  have hle : (cat.filter fun c => c.training_name == o.training_name).length ≤ 1 := by
    apply filter_key_length_le_one
    apply hu.imp
    intro a b hab hcon
    exact hab ((beq_iff_eq.mp hcon.1).trans (beq_iff_eq.mp hcon.2).symm)
  by_cases hm : (cat.filter fun c => c.training_name == o.training_name).isEmpty
  · rw [if_pos hm]
    rfl
  · rw [if_neg hm]
    rw [List.length_map]
    have hne : (cat.filter fun c => c.training_name == o.training_name) ≠ [] :=
      fun hh => hm (by rw [hh]; rfl)
    exact Nat.le_antisymm hle (Nat.succ_le_of_lt (List.length_pos.mpr hne))

theorem mergeCustomers_length_eq (l : List Enriched) (cus : List RawCustomer)
    (hu : List.Pairwise (fun a b => a.customer_id ≠ b.customer_id) cus) :
    (mergeCustomers l cus).length = l.length := by
  apply flatMap_length_eq
  intro e _
  have hle : (cus.filter fun u => u.customer_id == e.customer_id).length ≤ 1 := by
    apply filter_key_length_le_one
    apply hu.imp
    intro a b hab hcon
    exact hab ((beq_iff_eq.mp hcon.1).trans (beq_iff_eq.mp hcon.2).symm)
  by_cases hm : (cus.filter fun u => u.customer_id == e.customer_id).isEmpty
  · rw [if_pos hm]
    rfl
  · rw [if_neg hm]
    rw [List.length_map]
    have hne : (cus.filter fun u => u.customer_id == e.customer_id) ≠ [] :=
      fun hh => hm (by rw [hh]; rfl)
    exact Nat.le_antisymm hle (Nat.succ_le_of_lt (List.length_pos.mpr hne))

/-! Helper lemmas about the scalar KPI fallbacks and the risk score. -/

theorem avgOrderValue_of_zero (l : List Enriched) (h : totalOrders l = 0) :
    avgOrderValue l = 0 := by
  rw [avgOrderValue, if_neg]
  omega

theorem avgOrderValue_of_pos (l : List Enriched) (h : 0 < totalOrders l) :
    avgOrderValue l = totalRevenue l / (totalOrders l : ℚ) := by
  rw [avgOrderValue, if_pos h]

theorem latestGrowth_of_short (fd : List Enriched) (h : (monthlySeries fd).length ≤ 1) :
    latestGrowth fd = some 0 := by
  show (if 1 < ((seriesPct (monthlySeries fd)).map scaleEntry).length
      then (((seriesPct (monthlySeries fd)).map scaleEntry).getLast?.map fun p => p.2).join
      else some 0) = some 0
  rw [if_neg]
  rw [List.length_map, seriesPct_length]
  omega

theorem topClientShare_isSome (fd : List Enriched) (h1 : clientRev fd ≠ [])
    (h2 : ((clientRev fd).map fun p => p.2).sum ≠ 0) :
    ∃ q, topClientShare fd = some q := by
  rcases hcr : clientRev fd with _ | ⟨p, ps⟩
  · exact absurd hcr h1
  · rw [hcr] at h2
    refine ⟨p.2 / ((p :: ps).map fun q => q.2).sum * 100, ?_⟩
    simp only [topClientShare, hcr]
    rw [if_neg h2]

theorem dashboard_stop_emptyFiltered (lo : List RawOrder) (lc : List RawCatalog)
    (lu : List RawCustomer) (sel : Nat) (cities : List String)
    (h1 : loadData lo lc lu ≠ []) (h2 : filterData (loadData lo lc lu) sel cities = []) :
    dashboard lo lc lu sel cities = .error .emptyFiltered := by
  simp only [dashboard]
  rw [if_neg (by simp only [List.isEmpty_iff]; exact h1),
    if_pos (by simp only [List.isEmpty_iff]; exact h2)]

theorem riskScore_eq_count (mom tcs : Option ℚ) (nTop nAll : Nat) :
    riskScore mom tcs nTop nAll =
      [oLt mom 0, oGt tcs 40,
        decide ((nTop : ℚ) / (nAll : ℚ) < 3 / 10)].count true := by
  cases h1 : oLt mom 0 <;> cases h2 : oGt tcs 40 <;>
    by_cases h3 : (nTop : ℚ) / (nAll : ℚ) < 3 / 10 <;>
      simp [riskScore, h1, h2, h3, List.count_cons]

theorem riskScore_le_three (mom tcs : Option ℚ) (nTop nAll : Nat) :
    riskScore mom tcs nTop nAll ≤ 3 := by
  rw [riskScore]
  split <;> split <;> split <;> omega

theorem riskLevelOf_iff (n : Nat) :
    (riskLevelOf n = .LOW ↔ n = 0) ∧ (riskLevelOf n = .MODERATE ↔ n = 1) ∧
      (riskLevelOf n = .HIGH ↔ 2 ≤ n) := by
  rcases n with _ | _ | n <;> simp [riskLevelOf]

theorem mem_clientAnalysis_source (fd : List Enriched) :
    ∀ r ∈ clientAnalysis fd, ∃ e ∈ fd, e.company_name = some r.company_name := by
  intro r hr
  simp only [clientAnalysis, List.mem_map] at hr
  obtain ⟨nm, hnm, he⟩ := hr
  have hmem : nm ∈ fd.filterMap fun e => e.company_name := mem_dropDup id hnm
  simp only [List.mem_filterMap] at hmem
  obtain ⟨e, he2, hce⟩ := hmem
  subst he
  exact ⟨e, he2, hce⟩

/-! Concrete sample rows used by the closed-form evaluations below. -/

/-- An order of 2023 (client C1, Jakarta). -/
def ordMar2023 : RawOrder :=
  ⟨some "O0", "10/03/2023", some "Leadership", some "C1", some 1, some 100, some 5⟩

/-- An order of January 2024 with an untrusted source revenue of 999. -/
def ordJan2024 : RawOrder :=
  ⟨some "O1", "15/01/2024", some "Leadership", some "C1", some 2, some 100, some 999⟩

/-- An order of February 2024 with a missing source revenue. -/
def ordFeb2024 : RawOrder :=
  ⟨some "O2", "20/02/2024", some "Leadership", some "C1", some 1, some 200, none⟩

/-- A catalog entry for the training named Leadership. -/
def catLead : RawCatalog :=
  ⟨some "T1", some "Leadership", some "A", some 100, some 20, some 2, some "Mgmt"⟩

/-- A second catalog entry with a distinct id but the same training name. -/
def catLead2 : RawCatalog :=
  ⟨some "T2", some "Leadership", some "B", some 150, some 10, some 1, some "Mgmt"⟩

/-- A customer in Jakarta. -/
def custAcme : RawCustomer :=
  ⟨some "C1", some "Acme", some "Tech", some "Jakarta", some "x"⟩

/-- A 2023 order of a Bandung customer. -/
def ordAlpha2023 : RawOrder :=
  ⟨some "P1", "05/06/2023", some "Leadership", some "CA", some 1, some 100, none⟩

/-- A 2024 order of a Jakarta customer. -/
def ordBeta2024 : RawOrder :=
  ⟨some "P2", "05/06/2024", some "Leadership", some "CB", some 2, some 100, none⟩

/-- The Bandung customer. -/
def custAlpha : RawCustomer :=
  ⟨some "CA", some "AlphaCo", some "Tech", some "Bandung", none⟩

/-- The Jakarta customer. -/
def custBeta : RawCustomer :=
  ⟨some "CB", some "BetaCo", some "Tech", some "Jakarta", none⟩

/-- An order whose date does not parse, sharing its id with `ordGoodDate`. -/
def ordBadDate : RawOrder :=
  ⟨some "O1", "notadate", some "Leadership", some "C1", some 1, some 100, none⟩

/-- An order with a parsable date, sharing its id with `ordBadDate`. -/
def ordGoodDate : RawOrder :=
  ⟨some "O1", "01/02/2024", some "Leadership", some "C1", some 2, some 100, none⟩

/-- Training A revenue 75 (May 2024, Jakarta client). -/
def ordShare75 : RawOrder :=
  ⟨some "W1", "10/05/2024", some "A", some "C1", some 75, some 1, none⟩

/-- Training B revenue 25. -/
def ordShare25 : RawOrder :=
  ⟨some "W2", "11/05/2024", some "B", some "C1", some 25, some 1, none⟩

/-- Training A revenue 90. -/
def ordShare90 : RawOrder :=
  ⟨some "X1", "10/05/2024", some "A", some "C1", some 90, some 1, none⟩

/-- Training B revenue 10. -/
def ordShare10 : RawOrder :=
  ⟨some "X2", "11/05/2024", some "B", some "C1", some 10, some 1, none⟩

/-- The merged three-order dataframe over 2023 and 2024. -/
def wDf : List Enriched :=
  loadData [ordMar2023, ordJan2024, ordFeb2024] [catLead] [custAcme]

/-- Its 2024 Jakarta filtered view. -/
def wFd : List Enriched :=
  filterData wDf 2024 ["Jakarta"]

/-- The merged dataframe whose 2023 revenue sits in Bandung only. -/
def wDfYoY : List Enriched :=
  loadData [ordAlpha2023, ordBeta2024] [catLead] [custAlpha, custBeta]

/-- A filtered view with a 75/25 revenue split between two trainings. -/
def wFdPareto : List Enriched :=
  filterData (loadData [ordShare75, ordShare25] [] [custAcme]) 2024 ["Jakarta"]

/-- A filtered view with a 90/10 revenue split between two trainings. -/
def wFdConc : List Enriched :=
  filterData (loadData [ordShare90, ordShare10] [] [custAcme]) 2024 ["Jakarta"]

/-- The enriched record produced from `ordJan2024` alone. -/
def enrJan2024 : Enriched :=
  ⟨some "O1", ⟨2024, 1, 15⟩, some "Leadership", some "C1", some 2, some 100, some 200,
    some "T1", some "A", some 100, some 20, some 2, some "Mgmt",
    some "Acme", some "Tech", some "Jakarta", 202401, 2024, 20241⟩

/-! The claims. -/

/-- C1: for every record in the EnrichedOrder set produced by the pipeline,
`total_revenue` equals `qty * price_per_pax` computed from the
post-normalization values of that record (the orders-side `price_per_pax`
column), regardless of any revenue value present in the raw order source; when
`price_per_pax` or `qty` is missing, `total_revenue` is the missing marker. -/
theorem revenue_recomputed_c1 (lo : List RawOrder) (lc : List RawCatalog)
    (lu : List RawCustomer) (e : Enriched) (he : e ∈ loadData lo lc lu) :
    e.total_revenue = omul e.qty e.price_per_pax_x ∧
      ((e.qty = none ∨ e.price_per_pax_x = none) → e.total_revenue = none) := by
  obtain ⟨o, _, hq, hp, hr⟩ := mem_loadData he
  constructor
  · rw [hq, hp, hr]
  · intro hcase
    rw [hr]
    rcases hcase with hq0 | hp0
    · rw [hq] at hq0
      rw [hq0]
      rfl
    · rw [hp] at hp0
      rw [hp0]
      cases o.qty <;> rfl

/-- C1 witness: the raw order reports revenue 999 but the pipeline emits
2 * 100 = 200, recomputed from its own quantity and price. -/
theorem revenue_recomputed_c1_witness :
    ordJan2024.total_revenue = some 999 ∧
      enrJan2024 ∈ loadData [ordJan2024] [catLead] [custAcme] ∧
      enrJan2024.total_revenue = some 200 ∧
      enrJan2024.total_revenue = omul enrJan2024.qty enrJan2024.price_per_pax_x :=
  ⟨by decide, by decide, by decide,
    (revenue_recomputed_c1 [ordJan2024] [catLead] [custAcme] enrJan2024 (by decide)).1⟩

/-- C2 counterexample: all 2023 revenue lies in Bandung and all 2024 revenue in
Jakarta; selecting year 2024 with city Jakarta reports a 100 percent YoY growth
taken from the fully unfiltered yearly series, while the claimed
city-restricted series contains no prior year, for which the claim prescribes
a reported value of 0. -/
theorem yoy_series_c2_counterexample :
    currentYoy wDfYoY 2024 = some 100 ∧ yoySpecC2 wDfYoY 2024 ["Jakarta"] = some 0 ∧
      currentYoy wDfYoY 2024 ≠ yoySpecC2 wDfYoY 2024 ["Jakarta"] := by decide

/-- C2 amended: the reported YoY growth is computed over the yearly revenue
series of the whole merged dataframe, ignoring the city filter as well as the
year filter. For a selected year at position `i + 1` of that ascending series
the value is `(rev[i+1] - rev[i]) / rev[i] * 100` against the previous series
entry (the previous present year, not necessarily calendar year minus one),
and the missing marker when that previous revenue is zero; it is the missing
marker (pandas NaN), not 0, for the earliest year of the series; it is 0 only
for a selected year absent from the series. -/
theorem yoy_series_c2_amended (df : List Enriched) (sel : Nat) :
    ((∀ p ∈ yearlySeries df, p.1 ≠ sel) → currentYoy df sel = some 0) ∧
    (∀ v : ℚ, (yearlySeries df).get? 0 = some (sel, v) → currentYoy df sel = none) ∧
    (∀ (i y' : Nat) (v' v : ℚ), (yearlySeries df).get? i = some (y', v') →
      (yearlySeries df).get? (i + 1) = some (sel, v) →
      currentYoy df sel = if v' = 0 then none else some ((v - v') / v' * 100)) := by
  refine ⟨?_, ?_, ?_⟩
  · intro h
    have hf := find?_scaled_none (yearlySeries df) sel h
    simp only [currentYoy]
    rw [hf]
  · intro v h0
    rcases hys : yearlySeries df with _ | ⟨p, tail⟩
    · rw [hys] at h0
      simp at h0
    · rw [hys] at h0
      simp only [List.get?_cons_zero, Option.some.injEq] at h0
      subst h0
      have hf := find?_scaled_head sel v tail
      simp only [currentYoy]
      rw [hys, hf]
  · intro i y' v' v h1 h2
    have hf := find?_scaled_succ (yearlySeries df) i y' sel v' v
      (revSeriesBy_keys_nodup _ df) h1 h2
    simp only [currentYoy]
    rw [hf]
    simp only [pctStep]
    by_cases hv : v' = 0
    · rw [if_pos hv, if_pos hv]
      rfl
    · rw [if_neg hv, if_neg hv]
      rfl

/-- C2 witness: on the two-year series 2023 to 100 and 2024 to 200 the
reported YoY for 2024 is (200 - 100) / 100 * 100. -/
theorem yoy_series_c2_witness :
    (yearlySeries wDfYoY).get? 0 = some (2023, 100) ∧
      (yearlySeries wDfYoY).get? 1 = some (2024, 200) ∧
      currentYoy wDfYoY 2024 =
        if (100 : ℚ) = 0 then none else some ((200 - 100) / 100 * 100) :=
  ⟨by decide, by decide,
    (yoy_series_c2_amended wDfYoY 2024).2.2 0 2023 100 200 (by decide) (by decide)⟩

/-- C3 counterexample: a selection with zero matching orders (year 2030) ends
the run in the explicit empty-filter stop state; the KPI block is skipped
entirely, so no KPI is reported as 0 as the claim requires. -/
theorem ratio_safety_c3_counterexample :
    dashboard [ordMar2023, ordJan2024, ordFeb2024] [catLead] [custAcme] 2030 ["Jakarta"] =
      .error .emptyFiltered := by decide

/-- C3 amended: a selection whose filtered set is empty stops the run with the
explicit empty-filter state instead of computing KPIs; on a non-empty filtered
set `avg_order_value` is always a defined rational (0 when there are no
distinct order ids), the latest MoM growth is 0 whenever fewer than two months
of data exist, and `top_client_share` is a defined rational whenever the
grouped client revenues are non-empty with a nonzero total. -/
theorem ratio_safety_c3_amended :
    (∀ (lo : List RawOrder) (lc : List RawCatalog) (lu : List RawCustomer)
        (sel : Nat) (cities : List String),
      loadData lo lc lu ≠ [] → filterData (loadData lo lc lu) sel cities = [] →
      dashboard lo lc lu sel cities = .error .emptyFiltered) ∧
    (∀ fd : List Enriched, totalOrders fd = 0 → avgOrderValue fd = 0) ∧
    (∀ fd : List Enriched, 0 < totalOrders fd →
      avgOrderValue fd = totalRevenue fd / (totalOrders fd : ℚ)) ∧
    (∀ fd : List Enriched, (monthlySeries fd).length ≤ 1 → latestGrowth fd = some 0) ∧
    (∀ fd : List Enriched, clientRev fd ≠ [] →
      ((clientRev fd).map fun p => p.2).sum ≠ 0 → ∃ q, topClientShare fd = some q) :=
  ⟨dashboard_stop_emptyFiltered, avgOrderValue_of_zero, avgOrderValue_of_pos,
    latestGrowth_of_short, topClientShare_isSome⟩

/-- C3 witness: the empty 2030 selection stops; degenerate inputs give the 0
conventions; a concrete non-degenerate filtered set has a defined top-client
share. -/
theorem ratio_safety_c3_witness :
    dashboard [ordMar2023, ordJan2024, ordFeb2024] [catLead] [custAcme] 2030 ["Jakarta"] =
        .error .emptyFiltered ∧
      avgOrderValue [] = 0 ∧ latestGrowth [] = some 0 ∧
      ∃ q, topClientShare wFd = some q :=
  ⟨ratio_safety_c3_amended.1 _ _ _ _ _ (by decide) (by decide),
    ratio_safety_c3_amended.2.1 [] (by decide),
    ratio_safety_c3_amended.2.2.2.1 [] (by decide),
    ratio_safety_c3_amended.2.2.2.2 wFd (by decide) (by decide)⟩

/-- C4 counterexample: two catalog rows with distinct `training_id` but the
same `training_name` both survive catalog deduplication, and the left join
duplicates the single matching order: 2 enriched records from 1 normalized
order. -/
theorem join_counts_c4_counterexample :
    (loadData [ordJan2024] [catLead2, catLead] [custAcme]).length = 2 ∧
      (normalizeOrders [ordJan2024]).length = 1 ∧
      ((normalizeCatalog [catLead2, catLead]).map fun c => c.training_id) =
        [some "T2", some "T1"] := by decide

/-- C4 amended: the two left joins never drop an order row, so the enriched
set is at least as large as the normalized order set; the counts are equal
whenever the deduplicated catalog has pairwise distinct `training_name` values
(the customer join always preserves counts because customers are deduplicated
on the `customer_id` join key itself). -/
theorem join_counts_c4_amended (lo : List RawOrder) (lc : List RawCatalog)
    (lu : List RawCustomer) :
    (normalizeOrders lo).length ≤ (loadData lo lc lu).length ∧
    (List.Pairwise (fun a b => a.training_name ≠ b.training_name) (normalizeCatalog lc) →
      (loadData lo lc lu).length = (normalizeOrders lo).length) := by
  have hcust : ∀ l : List Enriched,
      (mergeCustomers l (normalizeCustomers lu)).length = l.length :=
    fun l => mergeCustomers_length_eq l _ (dropDup_pairwise _ lu)
  constructor
  · have h1 : ((normalizeOrders lo).map fixRevenue).length ≤
        (mergeCatalog ((normalizeOrders lo).map fixRevenue) (normalizeCatalog lc)).length :=
      mergeCatalog_length_ge _ _
    simp only [loadData, List.length_map, hcust]
    simpa using h1
  · intro hu
    simp only [loadData, List.length_map, hcust,
      mergeCatalog_length_eq _ _ hu]

/-- C4 witness: with a catalog of pairwise distinct training names the
enriched count equals the normalized order count. -/
theorem join_counts_c4_witness :
    List.Pairwise (fun a b => a.training_name ≠ b.training_name)
        (normalizeCatalog [catLead]) ∧
      (loadData [ordMar2023, ordJan2024, ordFeb2024] [catLead] [custAcme]).length =
        (normalizeOrders [ordMar2023, ordJan2024, ordFeb2024]).length :=
  ⟨by decide, (join_counts_c4_amended _ _ _).2 (by decide)⟩

/-- C5: with nonnegative per-training revenues and a positive total, the
dominant set is a prefix of the descending Pareto ranking, its cumulative
revenue share is at most 80 percent, and appending the next-ranked training
(whenever one exists) pushes the cumulative share strictly above 80 percent. -/
theorem pareto_boundary_c5 (fd : List Enriched)
    (hnn : ∀ p ∈ trainingRev fd, 0 ≤ p.2)
    (hS : 0 < ((trainingRev fd).map fun p => p.2).sum) :
    ∃ k, top80 fd = (paretoRows fd).take k ∧
      ((top80 fd).map fun r => r.revenue).sum /
        ((trainingRev fd).map fun p => p.2).sum * 100 ≤ 80 ∧
      ∀ r : ParetoRow, (paretoRows fd).get? k = some r →
        80 < (((top80 fd).map fun r => r.revenue).sum + r.revenue) /
          ((trainingRev fd).map fun p => p.2).sum * 100 := by
  have hpr : paretoRows fd =
      cumGo (((trainingRev fd).map fun p => p.2).sum) 0 (trainingRev fd) := rfl
  have ht80 : top80 fd = (paretoRows fd).filter cumLe80 := rfl
  set tr := trainingRev fd with htr
  set S := (tr.map fun p => p.2).sum with hSd
  obtain ⟨k, hk1, hk2, hk3⟩ := cumGo_filter_take S hS tr 0 hnn
  have htop : top80 fd = (paretoRows fd).take k := by
    rw [ht80, hpr, hk1]
  have hrev : (top80 fd).map (fun r => r.revenue) = (tr.map fun p => p.2).take k := by
    rw [htop, hpr, List.map_take, cumGo_map_rev]
  refine ⟨k, htop, ?_, ?_⟩
  · rcases Nat.eq_zero_or_pos k with hk0 | hkpos
    · subst hk0
      rw [hrev]
      simp only [List.take_zero, List.sum_nil, zero_div, zero_mul]
      norm_num
    · obtain ⟨k', rfl⟩ := Nat.exists_eq_succ_of_ne_zero (Nat.pos_iff_ne_zero.mp hkpos)
      have hlen : k' < (cumGo S 0 tr).length := by
        rw [cumGo_length]
        omega
      have hr' : (cumGo S 0 tr).get? k' = some ((cumGo S 0 tr).get ⟨k', hlen⟩) :=
        List.get?_eq_get hlen
      set r' := (cumGo S 0 tr).get ⟨k', hlen⟩ with hr'd
      have hmem : r' ∈ top80 fd := by
        rw [htop, hpr]
        have hg : ((cumGo S 0 tr).take (k' + 1)).get? k' = some r' := by
          rw [List.get?_take (Nat.lt_succ_self k')]
          exact hr'
        exact List.get?_mem hg
      have hle : cumLe80 r' = true := by
        rw [ht80] at hmem
        exact (List.mem_filter.mp hmem).2
      have hcum := cumGo_get?_cum S (ne_of_gt hS) tr 0 k' r' hr'
      rcases hc : r'.cum with _ | c
      · rw [hc] at hcum
        exact absurd hcum (by simp)
      · have hc80 : c ≤ 80 := by
          simp only [cumLe80, hc, decide_eq_true_eq] at hle
          exact hle
        rw [hc] at hcum
        have hceq : c = (0 + ((tr.map fun p => p.2).take (k' + 1)).sum) / S * 100 := by
          simpa using hcum
        rw [hrev]
        rw [hceq, zero_add] at hc80
        exact hc80
  · intro r hrk
    rw [hpr] at hrk
    obtain ⟨c, hc, hgt⟩ := hk3 r hrk
    have hcum := cumGo_get?_cum S (ne_of_gt hS) tr 0 k r hrk
    rw [hc] at hcum
    have hceq : c = (0 + ((tr.map fun p => p.2).take (k + 1)).sum) / S * 100 := by
      simpa using hcum
    have hrk2 : (cumGo S 0 tr)[k]? = some r := by
      rw [← List.get?_eq_getElem?]
      exact hrk
    have hval : (tr.map fun p => p.2)[k]? = some r.revenue := by
      rw [← cumGo_map_rev S 0 tr, List.getElem?_map, hrk2]
      rfl
    have hsum : ((tr.map fun p => p.2).take (k + 1)).sum =
        ((tr.map fun p => p.2).take k).sum + r.revenue := by
      rw [List.take_succ, hval]
      simp
    rw [hrev]
    rw [hceq, hsum, zero_add] at hgt
    exact hgt

/-- C5 witness: a 75 and 25 revenue split; the dominant set is the first
training at 75 percent and adding the second reaches 100 percent. -/
theorem pareto_boundary_c5_witness :
    (∀ p ∈ trainingRev wFdPareto, 0 ≤ p.2) ∧
      0 < ((trainingRev wFdPareto).map fun p => p.2).sum ∧
      ∃ k, top80 wFdPareto = (paretoRows wFdPareto).take k ∧
        ((top80 wFdPareto).map fun r => r.revenue).sum /
          ((trainingRev wFdPareto).map fun p => p.2).sum * 100 ≤ 80 ∧
        ∀ r : ParetoRow, (paretoRows wFdPareto).get? k = some r →
          80 < (((top80 wFdPareto).map fun r => r.revenue).sum + r.revenue) /
            ((trainingRev wFdPareto).map fun p => p.2).sum * 100 :=
  ⟨by decide, by decide, pareto_boundary_c5 wFdPareto (by decide) (by decide)⟩

/-- C6: whenever the training grouping is non-empty (the case in which the
script reaches the risk block without a fault), the risk score equals the
number of the three risk conditions that hold on the filtered set, it lies in
[0, 3], and the category is LOW exactly on 0, MODERATE exactly on 1 and HIGH
exactly on at least 2. -/
theorem risk_score_c6 (fd : List Enriched) (_h : trainingRev fd ≠ []) :
    riskScore (latestGrowth fd) (topClientShare fd) (top80 fd).length
        (trainingRev fd).length =
      [oLt (latestGrowth fd) 0, oGt (topClientShare fd) 40,
        decide (((top80 fd).length : ℚ) / ((trainingRev fd).length : ℚ) < 3 / 10)].count
        true ∧
    riskScore (latestGrowth fd) (topClientShare fd) (top80 fd).length
        (trainingRev fd).length ≤ 3 ∧
    (riskLevelOf (riskScore (latestGrowth fd) (topClientShare fd) (top80 fd).length
        (trainingRev fd).length) = .LOW ↔
      riskScore (latestGrowth fd) (topClientShare fd) (top80 fd).length
        (trainingRev fd).length = 0) ∧
    (riskLevelOf (riskScore (latestGrowth fd) (topClientShare fd) (top80 fd).length
        (trainingRev fd).length) = .MODERATE ↔
      riskScore (latestGrowth fd) (topClientShare fd) (top80 fd).length
        (trainingRev fd).length = 1) ∧
    (riskLevelOf (riskScore (latestGrowth fd) (topClientShare fd) (top80 fd).length
        (trainingRev fd).length) = .HIGH ↔
      2 ≤ riskScore (latestGrowth fd) (topClientShare fd) (top80 fd).length
        (trainingRev fd).length) :=
  ⟨riskScore_eq_count _ _ _ _, riskScore_le_three _ _ _ _, (riskLevelOf_iff _).1,
    (riskLevelOf_iff _).2.1, (riskLevelOf_iff _).2.2⟩

/-- C6 witness: on the concrete 2024 filtered set the score is the condition
count. -/
theorem risk_score_c6_witness :
    trainingRev wFd ≠ [] ∧
      riskScore (latestGrowth wFd) (topClientShare wFd) (top80 wFd).length
          (trainingRev wFd).length =
        [oLt (latestGrowth wFd) 0, oGt (topClientShare wFd) 40,
          decide (((top80 wFd).length : ℚ) / ((trainingRev wFd).length : ℚ) < 3 / 10)].count
          true :=
  ⟨by decide, (risk_score_c6 wFd (by decide)).1⟩

/-- C7 counterexample: two order rows share `order_id` O1; the first-encountered
row has an unparsable date, so the record that survives normalization is built
from the second row (quantity 2), not the first-encountered one (quantity 1). -/
theorem dedup_first_c7_counterexample :
    ordBadDate.order_id = some "O1" ∧ ordGoodDate.order_id = some "O1" ∧
      ordBadDate.qty = some 1 ∧ ordGoodDate.qty = some 2 ∧
      normalizeOrders [ordBadDate, ordGoodDate] =
        [⟨some "O1", ⟨2024, 2, 1⟩, some "Leadership", some "C1", some 2, some 100,
          none⟩] := by decide

/-- C7 amended: catalog and customer normalization keep, for every key value,
exactly the first-encountered input record with that key (at most one record
per key survives); order normalization keeps the first record with that key
among the rows that survived the date filter, so an order row whose date fails
to parse can cede its key to a later duplicate. -/
theorem dedup_first_c7_amended :
    (∀ (l : List RawCatalog) (k : Option String),
      (normalizeCatalog l).filter (fun c => decide (c.training_id = k)) =
        (l.find? fun c => decide (c.training_id = k)).toList) ∧
    (∀ (l : List RawCustomer) (k : Option String),
      (normalizeCustomers l).filter (fun u => decide (u.customer_id = k)) =
        (l.find? fun u => decide (u.customer_id = k)).toList) ∧
    (∀ (l : List RawOrder) (k : Option String),
      (normalizeOrders l).filter (fun o => decide (o.order_id = k)) =
        ((datedOrders l).find? fun o => decide (o.order_id = k)).toList) :=
  ⟨fun l k => dropDup_filter_key (fun c => c.training_id) k l,
    fun l k => dropDup_filter_key (fun u => u.customer_id) k l,
    fun l k => dropDup_filter_key (fun o => o.order_id) k (datedOrders l)⟩

/-- C8: order dates parse day-first (31/01/2024 is January 31), every record of
the normalized order set stems from a raw row whose date parsed, and when no
raw date parses the normalized order set is empty: no order survives with a
missing date. -/
theorem dayfirst_dates_c8 :
    parseDate "31/01/2024" = some ⟨2024, 1, 31⟩ ∧
    (∀ (l : List RawOrder) (o : Order), o ∈ normalizeOrders l →
      ∃ r ∈ l, parseDate r.order_date = some o.order_date) ∧
    (∀ l : List RawOrder, (∀ r ∈ l, parseDate r.order_date = none) →
      normalizeOrders l = []) := by
  refine ⟨by decide, ?_, ?_⟩
  · intro l o ho
    have h1 : o ∈ datedOrders l := mem_dropDup _ ho
    simp only [datedOrders, List.mem_filterMap] at h1
    obtain ⟨r, hr, hlift⟩ := h1
    simp only [liftOrder] at hlift
    obtain ⟨d, hp, hfd⟩ := Option.map_eq_some'.mp hlift
    refine ⟨r, hr, ?_⟩
    rw [hp]
    have hod : o.order_date = d := by
      rw [← hfd]
    rw [hod]
  · intro l h
    have hd : datedOrders l = [] := by
      simp only [datedOrders, List.filterMap_eq_nil_iff]
      intro r hr
      simp only [liftOrder, h r hr]
      rfl
    rw [normalizeOrders, hd]
    rfl

/-- C8 witness: the day-first parse of 31/01/2024, an unparsable date becoming
missing, and the dropping of an order whose date is unparsable. -/
theorem dayfirst_dates_c8_witness :
    parseDate "31/01/2024" = some ⟨2024, 1, 31⟩ ∧ parseDate "notadate" = none ∧
      normalizeOrders [ordBadDate] = [] :=
  ⟨dayfirst_dates_c8.1, by decide, dayfirst_dates_c8.2.2 [ordBadDate] (by decide)⟩

/-- C9: the upsell candidate set consists exactly of the client aggregates of
the filtered set whose revenue reaches the 0.6 revenue quantile and whose
distinct-order count is at most the median or whose distinct-training count is
at most 2; candidates are ranked descending by revenue; and every client
aggregate row stems from a record of the filtered set. -/
theorem upsell_clients_c9 (fd : List Enriched) :
    (∀ r : ClientRow, r ∈ upsellClients fd ↔
      r ∈ clientAnalysis fd ∧
      oGe r.total_revenue
          (quantile (3 / 5) ((clientAnalysis fd).map fun x => x.total_revenue)) = true ∧
      (oLe (r.total_orders : ℚ)
          (quantile (1 / 2) ((clientAnalysis fd).map fun x => (x.total_orders : ℚ))) =
          true ∨
        r.training_variety ≤ 2)) ∧
    List.Pairwise (fun a b => b.total_revenue ≤ a.total_revenue) (upsellClients fd) ∧
    (∀ r ∈ clientAnalysis fd, ∃ e ∈ fd, e.company_name = some r.company_name) := by
  have hunf : upsellClients fd = sortDescBy (fun r => r.total_revenue)
      ((clientAnalysis fd).filter
        (upsellCond (quantile (3 / 5) ((clientAnalysis fd).map fun x => x.total_revenue))
          (quantile (1 / 2) ((clientAnalysis fd).map fun x => (x.total_orders : ℚ))))) := rfl
  refine ⟨?_, ?_, mem_clientAnalysis_source fd⟩
  · intro r
    rw [hunf, mem_sortDescBy, List.mem_filter]
    simp only [upsellCond, Bool.and_eq_true, Bool.or_eq_true, decide_eq_true_eq]
  · rw [hunf]
    exact sortDescBy_pairwise _ _

/-- C9 witness: the single Acme aggregate of the concrete filtered set stems
from a filtered record. -/
theorem upsell_clients_c9_witness :
    ∃ e ∈ wFd, e.company_name = some "Acme" :=
  (upsell_clients_c9 wFd).2.2 ⟨"Acme", 400, 2, 3, 1⟩ (by decide)

/-- C10: if the top-ranked training alone contributes strictly more than 80
percent of a positive total over nonnegative per-training revenues, the
dominant set is empty, the concentration fraction 0 divided by the training
count is below 0.3, and the risk score is at least 1 whatever the other two
conditions evaluate to. -/
theorem concentration_c10 (fd : List Enriched) (r0 : String × ℚ)
    (rest : List (String × ℚ)) (h1 : trainingRev fd = r0 :: rest)
    (hnn : ∀ p ∈ trainingRev fd, 0 ≤ p.2)
    (hS : 0 < ((trainingRev fd).map fun p => p.2).sum)
    (hshare : 80 < r0.2 / ((trainingRev fd).map fun p => p.2).sum * 100) :
    top80 fd = [] ∧
      ((top80 fd).length : ℚ) / ((trainingRev fd).length : ℚ) < 3 / 10 ∧
      ∀ mom tcs : Option ℚ,
        1 ≤ riskScore mom tcs (top80 fd).length (trainingRev fd).length := by
  set S := ((trainingRev fd).map fun p => p.2).sum with hSd
  have htop : top80 fd = [] := by
    have he : top80 fd = (cumGo S 0 (r0 :: rest)).filter cumLe80 := by
      show (cumGo S 0 (trainingRev fd)).filter cumLe80 = _
      rw [h1]
    rw [he]
    have he2 : cumGo S 0 (r0 :: rest) =
        ({ name := r0.1, revenue := r0.2,
           cum := if S = 0 then none else some ((0 + r0.2) / S * 100) } : ParetoRow) ::
          cumGo S (0 + r0.2) rest := rfl
    rw [he2, List.filter_cons_of_neg, List.filter_eq_nil_iff]
    · intro x hx
      obtain ⟨c, hc, hcge⟩ := cumGo_cum_lower S hS rest (0 + r0.2)
        (fun q hq => hnn q (by rw [h1]; exact List.mem_cons_of_mem _ hq)) x hx
      simp only [cumLe80, hc, decide_eq_true_eq]
      intro hcle
      rw [zero_add] at hcge
      linarith
    · simp only [cumLe80, if_neg (ne_of_gt hS), decide_eq_true_eq]
      intro hcle
      rw [zero_add] at hcle
      linarith
  refine ⟨htop, ?_, ?_⟩
  · rw [htop]
    simp only [List.length_nil, Nat.cast_zero, zero_div]
    norm_num
  · intro mom tcs
    rw [htop]
    simp only [List.length_nil, riskScore, Nat.cast_zero, zero_div]
    have h3 : (0 : ℚ) < 3 / 10 := by norm_num
    rw [if_pos h3]
    exact Nat.le_add_left 1 _

/-- C10 witness: a 90 and 10 revenue split; the top training holds 90 percent,
the dominant set is empty and the concentration condition fires. -/
theorem concentration_c10_witness :
    trainingRev wFdConc = [("A", 90), ("B", 10)] ∧
      (∀ p ∈ trainingRev wFdConc, 0 ≤ p.2) ∧
      0 < ((trainingRev wFdConc).map fun p => p.2).sum ∧
      80 < (90 : ℚ) / ((trainingRev wFdConc).map fun p => p.2).sum * 100 ∧
      top80 wFdConc = [] ∧
      ((top80 wFdConc).length : ℚ) / ((trainingRev wFdConc).length : ℚ) < 3 / 10 :=
  ⟨by decide, by decide, by decide, by decide,
    (concentration_c10 wFdConc ("A", 90) [("B", 10)] (by decide) (by decide) (by decide)
      (by decide)).1,
    (concentration_c10 wFdConc ("A", 90) [("B", 10)] (by decide) (by decide) (by decide)
      (by decide)).2.1⟩

end Dashboard
